import Mathlib

/-!
# Verification of `pytac/lattice.py` (dls-controls/pytac)

A shallow embedding of the `Lattice` class from `pytac/lattice.py`.

Python dictionaries are embedded as association lists with first-match
lookup and in-place update.  Python exceptions become an explicit error
type `PytacError`; a `KeyError` raised by a dictionary lookup is the
`keyError` constructor, while the pytac domain exceptions
(`LatticeException`, `DeviceException`, `FieldException`,
`HandleException` from `pytac.exceptions`) each get their own
constructor.  Numeric values (floats in Python) are embedded as `ℚ`.

The external collaborators (`Element`, `Model`, `Device`, `UnitConv`)
are not part of `lattice.py`; they are embedded as small concrete state
machines realising exactly the capability contract `lattice.py` uses:
`Model` exposes `get_value`/`set_value` by field and handle, a `units`
attribute, a device registry and field discovery; `Element` exposes
`length`, `families`, `cell`, `get_device`, `get_value` and
`set_value`; `UnitConv` is a pure conversion function
`convert(value, origin, target)`.

Methods of `Lattice` that mutate state return the updated lattice
explicitly; a uniform dispatcher `Lattice.call` packages every method
as a state transition `Lattice → LResult × Lattice` so that frame
properties (queries do not change the lattice) can be stated.
-/

/-- First-match lookup in an association list (a Python `dict[key]` read:
`some v` on a hit, `none` standing for a raised `KeyError`). -/
def alookup {α β : Type} [DecidableEq α] : List (α × β) → α → Option β
  | [], _ => none
  | (k, v) :: rest, key => if key = k then some v else alookup rest key

/-- In-place update of an association list (a Python `dict[key] = val`
write: overwrite the existing binding, else append a new one). -/
def aupdate {α β : Type} [DecidableEq α] : List (α × β) → α → β → List (α × β)
  | [], key, val => [(key, val)]
  | (k, v) :: rest, key, val =>
      if key = k then (key, val) :: rest else (k, v) :: aupdate rest key val

namespace pytac

/-- `pytac.SP`: the setpoint handle. -/
def SP : String := "setpoint"

/-- `pytac.RB`: the readback handle. -/
def RB : String := "readback"

/-- `pytac.LIVE`: the live-machine model key. -/
def LIVE : String := "live"

/-- `pytac.SIM`: the simulation model key. -/
def SIM : String := "simulation"

/-- `pytac.ENG`: engineering units. -/
def ENG : String := "engineering"

/-- `pytac.PHYS`: physics units. -/
def PHYS : String := "physics"

end pytac

/-- The exceptions `lattice.py` raises or catches: the four pytac domain
exceptions plus Python's built-in `KeyError` (carrying the missing key). -/
inductive PytacError : Type
  | keyError (key : String)
  | latticeException (msg : String)
  | deviceException (msg : String)
  | fieldException (msg : String)
  | handleException (msg : String)
  deriving Repr, DecidableEq

/-- A named device backing a field (external collaborator; only its
`name` attribute is consumed by `lattice.py`). -/
structure Device : Type where
  name : String
  deriving Repr, DecidableEq

/-- A unit-conversion object: a pure function
`convert(value, origin, target)` (external collaborator). -/
structure UnitConv : Type where
  convert : ℚ → String → String → ℚ

/-- An element of the ring (external collaborator): identity `eid`
(standing for Python object identity), a physical `length`, a set of
`families` tags, a `cell`, a field → device registry and a per
field-and-handle value store. -/
structure Element : Type where
  eid : Nat
  length : ℚ
  families : List String
  cell : Int
  devices : List (String × Device)
  vals : List ((String × String) × ℚ)
  deriving Repr, DecidableEq

namespace Element

/-- `element.get_device(field)`: dictionary lookup, `none` standing for
a raised `KeyError`. -/
def get_device (e : Element) (field : String) : Option Device :=
  alookup e.devices field

/-- `element.get_value(field, handle)`: read the stored value, raising
`FieldException` when the element has no such field/handle. -/
def get_value (e : Element) (field handle : String) : Except PytacError ℚ :=
  match alookup e.vals (field, handle) with
  | some v => .ok v
  | none => .error (.fieldException ("No field " ++ field ++ " on element"))

/-- `element.set_value(field, value)`: store the setpoint value for the
field, unchanged. -/
def set_value (e : Element) (field : String) (value : ℚ) : Element :=
  { e with vals := aupdate e.vals (field, pytac.SP) value }

end Element

/-- A model (external collaborator, live or simulated): native `units`,
the set of `fields` it defines, a per field-and-handle value store and
a device registry. -/
structure Model : Type where
  units : String
  fields : List String
  vals : List ((String × String) × ℚ)
  devices : List (String × Device)
  deriving Repr, DecidableEq

namespace Model

/-- `model.get_fields()`. -/
def get_fields (m : Model) : List String := m.fields

/-- `model.get_value(field, handle)`: raises `FieldException` when the
model lacks the field (or stores no value under the handle). -/
def get_value (m : Model) (field handle : String) : Except PytacError ℚ :=
  if field ∈ m.fields then
    match alookup m.vals (field, handle) with
    | some v => .ok v
    | none => .error (.fieldException ("No field " ++ field ++ " on model"))
  else .error (.fieldException ("No field " ++ field ++ " on model"))

/-- `model.set_value(field, value)`: store the setpoint value; raises
`FieldException` when the model lacks the field. -/
def set_value (m : Model) (field : String) (value : ℚ) : Except PytacError Model :=
  if field ∈ m.fields then
    .ok { m with vals := aupdate m.vals (field, pytac.SP) value }
  else .error (.fieldException ("No field " ++ field ++ " on model"))

/-- `model.add_device(field, device)`. -/
def add_device (m : Model) (field : String) (device : Device) : Model :=
  { m with devices := aupdate m.devices field device }

/-- `model.get_device(field)`: dictionary lookup; a miss raises
`KeyError`. -/
def get_device (m : Model) (field : String) : Except PytacError Device :=
  match alookup m.devices field with
  | some d => .ok d
  | none => .error (.keyError field)

end Model

namespace Pytac

/-- The `Lattice` class state: `name`, `_lattice` (the ordered element
list), `_energy`, `_models` (model-type key → model) and `_uc`
(field → unit conversion). -/
structure Lattice : Type where
  name : String
  energy : Int
  lattice : List Element
  models : List (String × Model)
  uc : List (String × UnitConv)

namespace Lattice

/-- `Lattice.set_model(model, model_type)`: registers/overwrites. -/
def set_model (latt : Lattice) (model : Model) (model_type : String) : Lattice :=
  { latt with models := aupdate latt.models model_type model }

/-- `Lattice.get_fields()`: union of the fields of every registered
model (a Python `set`, embedded as a deduplicated list). -/
def get_fields (latt : Lattice) : List String :=
  ((latt.models.map fun p => p.2.get_fields).foldl (· ++ ·) []).dedup

/-- `Lattice.add_device(field, device, uc)`: stores the device into the
LIVE model and the conversion object into `_uc`; raises `KeyError` when
no LIVE model is registered. -/
def add_device (latt : Lattice) (field : String) (device : Device) (uc : UnitConv) :
    Except PytacError Unit × Lattice :=
  match alookup latt.models pytac.LIVE with
  | none => (.error (.keyError pytac.LIVE), latt)
  | some m =>
      (.ok (), { latt with
                  models := aupdate latt.models pytac.LIVE (m.add_device field device),
                  uc := aupdate latt.uc field uc })

/-- `Lattice.get_device(field)`: delegates to the LIVE model; raises
`KeyError` when no LIVE model is registered. -/
def get_device (latt : Lattice) (field : String) : Except PytacError Device :=
  match alookup latt.models pytac.LIVE with
  | none => .error (.keyError pytac.LIVE)
  | some m => m.get_device field

/-- `Lattice.get_unitconv(field)`: direct `_uc` lookup; a miss raises
`KeyError`. -/
def get_unitconv (latt : Lattice) (field : String) : Except PytacError UnitConv :=
  match alookup latt.uc field with
  | some u => .ok u
  | none => .error (.keyError field)

/-- `Lattice.get_value(field, handle, units, model)`: the whole body
runs inside one `try`; `except KeyError` (from the `_models` or `_uc`
lookup) re-raises as `DeviceException`, `except FieldException` (from
the model) re-raises as `FieldException`. -/
def get_value (latt : Lattice) (field : String) (handle : String := pytac.RB)
    (units : String := pytac.ENG) (model : String := pytac.LIVE) :
    Except PytacError ℚ :=
  let body : Except PytacError ℚ :=
    match alookup latt.models model with
    | none => .error (.keyError model)
    | some m =>
        match m.get_value field handle with
        | .error e => .error e
        | .ok value =>
            match alookup latt.uc field with
            | none => .error (.keyError field)
            | some u => .ok (u.convert value m.units units)
  match body with
  | .error (.keyError _) =>
      .error (.deviceException ("No model type " ++ model ++ " on lattice " ++ latt.name))
  | .error (.fieldException _) =>
      .error (.fieldException ("No field " ++ field ++ " on lattice " ++ latt.name))
  | other => other

/-- `Lattice.set_value(field, value, handle, units, model)`: rejects a
non-setpoint handle with `HandleException` first; the `_models` lookup
has its own `try` whose `KeyError` becomes `DeviceException`; the
conversion plus `model.set_value` run in a second `try` where both
`KeyError` and `FieldException` become `FieldException`. -/
def set_value (latt : Lattice) (field : String) (value : ℚ)
    (handle : String := pytac.SP) (units : String := pytac.ENG)
    (model : String := pytac.LIVE) : Except PytacError Unit × Lattice :=
  if handle ≠ pytac.SP then
    (.error (.handleException ("Must write using " ++ pytac.SP)), latt)
  else
    match alookup latt.models model with
    | none =>
        (.error (.deviceException
          ("No model type " ++ model ++ " on lattice " ++ latt.name)), latt)
    | some m =>
        let body : Except PytacError Model :=
          match alookup latt.uc field with
          | none => .error (.keyError field)
          | some u => m.set_value field (u.convert value units m.units)
        match body with
        | .ok m2 => (.ok (), { latt with models := aupdate latt.models model m2 })
        | .error (.keyError _) =>
            (.error (.fieldException
              ("No field " ++ field ++ " on lattice " ++ latt.name)), latt)
        | .error (.fieldException _) =>
            (.error (.fieldException
              ("No field " ++ field ++ " on lattice " ++ latt.name)), latt)
        | .error e => (.error e, latt)

/-- `Lattice.get_energy()`. -/
def get_energy (latt : Lattice) : Int := latt.energy

/-- `Lattice.__getitem__(n)`. -/
def getitem (latt : Lattice) (n : Nat) : Option Element := latt.lattice.get? n

/-- `Lattice.__len__()`. -/
def len (latt : Lattice) : Nat := latt.lattice.length

/-- `Lattice.get_length()`: `total_length = 0`, then accumulate each
element's length over the lattice in order. -/
def get_length (latt : Lattice) : ℚ :=
  latt.lattice.foldl (fun total_length e => total_length + e.length) 0

/-- `Lattice.add_element(element)`: append. -/
def add_element (latt : Lattice) (element : Element) : Lattice :=
  { latt with lattice := latt.lattice ++ [element] }

/-- The Python membership test `family in element.families` where
`family` may be `None`: a set of string tags never contains `None`. -/
def familyMatch (family : Option String) (fams : List String) : Bool :=
  match family with
  | none => false
  | some f => fams.contains f

/-- `Lattice.get_elements(family, cell)`: start from the full `_lattice`
when `family is None` (else from `[]`), unconditionally run the
tag-filter loop appending matches, then filter by `cell` when given. -/
def get_elements (latt : Lattice) (family : Option String := none)
    (cell : Option Int := none) : List Element :=
  let elements := if family = none then latt.lattice else []
  let elements := elements ++ latt.lattice.filter fun e => familyMatch family e.families
  match cell with
  | none => elements
  | some c => elements.filter fun e => e.cell = c

/-- `Lattice.get_all_families()`: union of every element's family tags
(a Python `set`, embedded as a deduplicated list). -/
def get_all_families (latt : Lattice) : List String :=
  ((latt.lattice.map fun e => e.families).foldl (· ++ ·) []).dedup

/-- The scan loop of `Lattice.get_s`: accumulate lengths until the
element is found by identity (`el is elem`), else fall through to a
`LatticeException`. -/
def get_s_aux (elem : Element) : List Element → ℚ → Except PytacError ℚ
  | [], _ => .error (.latticeException ("Element not in lattice"))
  | el :: rest, s_pos =>
      if el.eid ≠ elem.eid then get_s_aux elem rest (s_pos + el.length)
      else .ok s_pos

/-- `Lattice.get_s(elem)`. -/
def get_s (latt : Lattice) (elem : Element) : Except PytacError ℚ :=
  get_s_aux elem latt.lattice 0

/-- `Lattice.get_family_s(family)`: `get_s` of every element of the
family, in order; an exception from `get_s` propagates. -/
def get_family_s (latt : Lattice) (family : Option String) :
    Except PytacError (List ℚ) :=
  (latt.get_elements family none).mapM latt.get_s

/-- `Lattice.get_element_devices(family, field)`: for each element of
the family try `element.get_device(field)`, silently skipping a
`KeyError`. -/
def get_element_devices (latt : Lattice) (family field : String) : List Device :=
  (latt.get_elements (some family) none).foldl
    (fun devices element =>
      match element.get_device field with
      | some d => devices ++ [d]
      | none => devices) []

/-- `Lattice.get_element_device_names(family, field)`. -/
def get_element_device_names (latt : Lattice) (family field : String) : List String :=
  (latt.get_element_devices family field).map fun device => device.name

/-- `Lattice.get_element_values(family, field, handle)`: per-element
value list; an exception from an element propagates.  (The optional
numpy `dtype` materialisation changes the container type only and is
not embedded.) -/
def get_element_values (latt : Lattice) (family : Option String)
    (field handle : String) : Except PytacError (List ℚ) :=
  (latt.get_elements family none).mapM fun element => element.get_value field handle

/-- The write loop of `Lattice.set_element_values`: walk the lattice,
and for each element of the family consume the next value and call the
element's own `set_value` (mirroring `zip(elements, values)` over the
filtered element list). -/
def set_values_zip (family field : String) :
    List Element → List ℚ → List Element
  | [], _ => []
  | e :: es, vs =>
      if familyMatch (some family) e.families then
        match vs with
        | [] => e :: set_values_zip family field es []
        | v :: vs2 => e.set_value field v :: set_values_zip family field es vs2
      else e :: set_values_zip family field es vs

/-- `Lattice.set_element_values(family, field, values)`: raises
`LatticeException` when the value count differs from the family's
element count; otherwise writes one value per family element in order
via the element's own `set_value`. -/
def set_element_values (latt : Lattice) (family field : String) (values : List ℚ) :
    Except PytacError Unit × Lattice :=
  let elements := latt.get_elements (some family) none
  if elements.length ≠ values.length then
    (.error (.latticeException
      ("Number of elements in given array must be equal to the number of elements in the family")),
     latt)
  else
    (.ok (), { latt with lattice := set_values_zip family field latt.lattice values })

end Lattice

/-- One method call on a `Lattice` object: every public method of the
class, with its arguments. -/
inductive LMethod : Type
  | mSetModel (model : Model) (model_type : String)
  | mGetFields
  | mAddDevice (field : String) (device : Device) (uc : UnitConv)
  | mGetDevice (field : String)
  | mGetUnitconv (field : String)
  | mGetValue (field handle units model : String)
  | mSetValue (field : String) (value : ℚ) (handle units model : String)
  | mGetEnergy
  | mGetLength
  | mAddElement (element : Element)
  | mGetElements (family : Option String) (cell : Option Int)
  | mGetAllFamilies
  | mGetS (elem : Element)
  | mGetFamilyS (family : Option String)
  | mGetElementDevices (family field : String)
  | mGetElementDeviceNames (family field : String)
  | mGetElementValues (family : Option String) (field handle : String)
  | mSetElementValues (family field : String) (values : List ℚ)

/-- The value a method call returns (exceptions included). -/
inductive LResult : Type
  | rUnit (r : Except PytacError Unit)
  | rRat (q : ℚ)
  | rRatE (r : Except PytacError ℚ)
  | rRats (r : Except PytacError (List ℚ))
  | rStrs (s : List String)
  | rDevice (r : Except PytacError Device)
  | rDevices (l : List Device)
  | rUC (r : Except PytacError UnitConv)
  | rInt (n : Int)
  | rElements (l : List Element)

/-- Whether the method is a pure query (reads the lattice) as opposed
to a mutator (`set_model`, `add_device`, `add_element`, `set_value`,
`set_element_values`). -/
def LMethod.isQuery : LMethod → Bool
  | .mSetModel _ _ => false
  | .mAddDevice _ _ _ => false
  | .mAddElement _ => false
  | .mSetValue _ _ _ _ _ => false
  | .mSetElementValues _ _ _ => false
  | _ => true

/-- Dispatch one method call on the lattice state: the result paired
with the state after the call. -/
def Lattice.call (latt : Lattice) : LMethod → LResult × Lattice
  | .mSetModel model model_type => (.rUnit (.ok ()), latt.set_model model model_type)
  | .mGetFields => (.rStrs latt.get_fields, latt)
  | .mAddDevice field device uc =>
      let (r, latt2) := latt.add_device field device uc
      (.rUnit r, latt2)
  | .mGetDevice field => (.rDevice (latt.get_device field), latt)
  | .mGetUnitconv field => (.rUC (latt.get_unitconv field), latt)
  | .mGetValue field handle units model =>
      (.rRatE (latt.get_value field handle units model), latt)
  | .mSetValue field value handle units model =>
      let (r, latt2) := latt.set_value field value handle units model
      (.rUnit r, latt2)
  | .mGetEnergy => (.rInt latt.get_energy, latt)
  | .mGetLength => (.rRat latt.get_length, latt)
  | .mAddElement element => (.rUnit (.ok ()), latt.add_element element)
  | .mGetElements family cell => (.rElements (latt.get_elements family cell), latt)
  | .mGetAllFamilies => (.rStrs latt.get_all_families, latt)
  | .mGetS elem => (.rRatE (latt.get_s elem), latt)
  | .mGetFamilyS family => (.rRats (latt.get_family_s family), latt)
  | .mGetElementDevices family field =>
      (.rDevices (latt.get_element_devices family field), latt)
  | .mGetElementDeviceNames family field =>
      (.rStrs (latt.get_element_device_names family field), latt)
  | .mGetElementValues family field handle =>
      (.rRats (latt.get_element_values family field handle), latt)
  | .mSetElementValues family field values =>
      let (r, latt2) := latt.set_element_values family field values
      (.rUnit r, latt2)

/-- Discriminator: does a `get_value` outcome consist of a raw,
uncaught `KeyError`? -/
def isRawKeyError : Except PytacError ℚ → Bool
  | .error (.keyError _) => true
  | _ => false

/-! Concrete fixtures used to exercise the theorems on closed inputs. -/

/-- A concrete device. -/
def dev1 : Device := ⟨"BPM1"⟩

/-- First fixture element: length 1, family `A`, cell 1, one device and
one readback value on field `x`. -/
def el1 : Element := ⟨1, 1, ["A"], 1, [("x", dev1)], [(("x", pytac.RB), 5)]⟩

/-- Second fixture element: length 2, family `A`, cell 1. -/
def el2 : Element := ⟨2, 2, ["A"], 1, [], []⟩

/-- Third fixture element: length 3, family `B`, cell 2. -/
def el3 : Element := ⟨3, 3, ["B"], 2, [], []⟩

/-- A value-equal copy of `el1` with a different identity. -/
def el1twin : Element := ⟨9, 1, ["A"], 1, [("x", dev1)], [(("x", pytac.RB), 5)]⟩

/-- A three-element fixture lattice with lengths `[1, 2, 3]`. -/
def exLatt3 : Lattice := ⟨"EX", 3000, [el1, el2, el3], [], []⟩

/-- A fixture model holding field `x` with readback value 7, in physics
units. -/
def mX : Model := ⟨pytac.PHYS, ["x"], [(("x", pytac.RB), 7)], []⟩

/-- A lattice with a LIVE model that has field `x`, but an empty
unit-conversion table. -/
def cexLatt : Lattice := ⟨"CEX", 3000, [], [(pytac.LIVE, mX)], []⟩

/-- The identity unit conversion. -/
def ucId : UnitConv := ⟨fun v _ _ => v⟩

/-- A lattice with a LIVE model that has field `x` and an identity
unit-conversion entry for `x`. -/
def rtLatt : Lattice := ⟨"RT", 3000, [], [(pytac.LIVE, mX)], [("x", ucId)]⟩

/-- A lattice with no elements, no models, no conversions. -/
def emptyLatt : Lattice := ⟨"E", 3000, [], [], []⟩

end Pytac

namespace Pytac

/-! ## Association-list lemmas -/

theorem alookup_aupdate_self {α β : Type} [DecidableEq α] (l : List (α × β)) (k : α) (v : β) :
    alookup (aupdate l k v) k = some v := by
  induction l with
  | nil => simp [alookup, aupdate]
  | cons p rest ih =>
      obtain ⟨a, b⟩ := p
      by_cases h : k = a <;> simp [alookup, aupdate, h, ih]

theorem alookup_aupdate_ne {α β : Type} [DecidableEq α] (l : List (α × β)) (k k2 : α) (v : β)
    (h : k2 ≠ k) : alookup (aupdate l k v) k2 = alookup l k2 := by
  induction l with
  | nil => simp [alookup, aupdate, h]
  | cons p rest ih =>
      obtain ⟨a, b⟩ := p
      by_cases h2 : k = a
      · subst h2
        simp [alookup, aupdate, h]
      · by_cases h3 : k2 = a <;> simp [alookup, aupdate, h2, h3, ih]

/-! ## `get_elements` lemmas -/

theorem filter_familyMatch_none (l : List Element) :
    l.filter (fun e => Lattice.familyMatch none e.families) = [] := by
  induction l with
  | nil => rfl
  | cons e es ih => simp [Lattice.familyMatch, ih]

theorem get_elements_none (latt : Lattice) (cell : Option Int) :
    latt.get_elements none cell =
      match cell with
      | none => latt.lattice
      | some c => latt.lattice.filter fun e => e.cell = c := by
  cases cell <;> simp [Lattice.get_elements, filter_familyMatch_none]

theorem get_elements_some (latt : Lattice) (f : String) (cell : Option Int) :
    latt.get_elements (some f) cell =
      match cell with
      | none => latt.lattice.filter fun e => e.families.contains f
      | some c =>
          (latt.lattice.filter fun e => e.families.contains f).filter fun e => e.cell = c := by
  cases cell <;> simp [Lattice.get_elements, Lattice.familyMatch]

end Pytac

/-- Claim C2: `set_value` with a handle different from the setpoint handle
`pytac.SP` raises `HandleException` and leaves the lattice unchanged,
for every lattice whatsoever (registered models, fields and conversion
entries are irrelevant): the handle check comes before any lookup. -/
theorem set_value_wrong_handle_raises (latt : Pytac.Lattice) (field : String) (value : ℚ)
    (handle units model : String) (h : handle ≠ pytac.SP) :
    latt.set_value field value handle units model
      = (.error (.handleException ("Must write using " ++ pytac.SP)), latt) := by
  simp [Pytac.Lattice.set_value, h]

/-- Claim C2 witness: on a lattice with no models, no conversion entries and
no elements, a readback-handle write fails with `HandleException`. -/
theorem set_value_wrong_handle_raises_witness :
    pytac.RB ≠ pytac.SP ∧
      Pytac.emptyLatt.set_value "x" 5 pytac.RB pytac.ENG pytac.LIVE
        = (.error (.handleException ("Must write using " ++ pytac.SP)), Pytac.emptyLatt) :=
  ⟨by decide, set_value_wrong_handle_raises Pytac.emptyLatt "x" 5 pytac.RB pytac.ENG
    pytac.LIVE (by decide)⟩

/-- Claim C3: `get_elements` with `family = None` returns all elements
(filtered by cell when a cell is given); with a family `f` it returns
exactly the elements whose family-tag set contains `f` (further
filtered by cell when given), always preserving lattice order. -/
theorem get_elements_spec (latt : Pytac.Lattice) (f : String) (cell : Option Int) :
    latt.get_elements none cell
      = latt.lattice.filter (fun e =>
          match cell with | none => true | some c => decide (e.cell = c)) ∧
    latt.get_elements (some f) cell
      = latt.lattice.filter (fun e =>
          e.families.contains f &&
            match cell with | none => true | some c => decide (e.cell = c)) := by
  cases cell with
  | none =>
      refine ⟨?_, ?_⟩
      · rw [Pytac.get_elements_none]
        simp
      · rw [Pytac.get_elements_some]
        simp
  | some c =>
      refine ⟨?_, ?_⟩
      · rw [Pytac.get_elements_none]
      · rw [Pytac.get_elements_some]
        simp [List.filter_filter, Bool.and_comm]

/-- Claim C1 counterexample: on a lattice whose LIVE model has field `x` (with
a readback value) but whose unit-conversion table is empty, `get_value`
does NOT surface a raw `KeyError`: the `except KeyError` clause of
`get_value` catches the `_uc[field]` miss and re-raises it as a wrapped
`DeviceException`. -/
theorem get_value_missing_uc_counterexample :
    Pytac.isRawKeyError
        (Pytac.cexLatt.get_value "x" pytac.RB pytac.ENG pytac.LIVE) = false ∧
    Pytac.cexLatt.get_value "x" pytac.RB pytac.ENG pytac.LIVE
      = .error (.deviceException ("No model type " ++ pytac.LIVE ++ " on lattice CEX")) := by
  constructor <;> rfl

/-- Claim C1 amended: for every lattice with a registered model under the
requested key and a model that has the requested field, if the
unit-conversion table has no entry for the field, then `get_value`
fails with a wrapped `DeviceException` (the raw `KeyError` from the
conversion lookup is caught by the same `except KeyError` clause that
handles the model lookup), not with a raw `KeyError` and not with a
`FieldException`. -/
theorem get_value_missing_uc_wrapped (latt : Pytac.Lattice)
    (field handle units model : String) (m : Model) (v : ℚ)
    (hm : alookup latt.models model = some m)
    (hv : m.get_value field handle = .ok v)
    (hu : alookup latt.uc field = none) :
    latt.get_value field handle units model
      = .error (.deviceException
          ("No model type " ++ model ++ " on lattice " ++ latt.name)) := by
  simp [Pytac.Lattice.get_value, hm, hv, hu]

/-- Claim C1 amended witness: the concrete lattice `cexLatt` satisfies the
hypotheses and `get_value` yields the wrapped `DeviceException`. -/
theorem get_value_missing_uc_wrapped_witness :
    alookup Pytac.cexLatt.models pytac.LIVE = some Pytac.mX ∧
    Pytac.mX.get_value "x" pytac.RB = .ok 7 ∧
    alookup Pytac.cexLatt.uc "x" = none ∧
    Pytac.cexLatt.get_value "x" pytac.RB pytac.ENG pytac.LIVE
      = .error (.deviceException
          ("No model type " ++ pytac.LIVE ++ " on lattice " ++ Pytac.cexLatt.name)) :=
  ⟨rfl, rfl, rfl,
    get_value_missing_uc_wrapped Pytac.cexLatt "x" pytac.RB pytac.ENG pytac.LIVE
      Pytac.mX 7 rfl rfl rfl⟩

namespace Pytac

theorem get_element_devices_foldl (field : String) (l : List Element) (init : List Device) :
    (l.foldl (fun devices element =>
        match element.get_device field with
        | some d => devices ++ [d]
        | none => devices) init)
      = init ++ l.filterMap (fun e => e.get_device field) := by
  induction l generalizing init with
  | nil => simp
  | cons e es ih => cases h : e.get_device field <;> simp [h, ih]

theorem foldl_add_length (l : List Element) (a : ℚ) :
    l.foldl (fun total_length e => total_length + e.length) a
      = a + (l.map Element.length).sum := by
  induction l generalizing a with
  | nil => simp
  | cons e es ih => simp [ih, add_assoc]

end Pytac

/-- Claim C7: `get_element_devices(family, field)` returns, in lattice order,
the devices of exactly those family elements whose device lookup for
the field succeeds (a `KeyError` from an element is swallowed and the
element skipped), and `get_element_device_names` returns the names of
the same devices in the same order. -/
theorem get_element_devices_spec (latt : Pytac.Lattice) (family field : String) :
    latt.get_element_devices family field
      = (latt.lattice.filter fun e => e.families.contains family).filterMap
          (fun e => e.get_device field) ∧
    latt.get_element_device_names family field
      = (latt.get_element_devices family field).map Device.name := by
  constructor
  · have h := Pytac.get_elements_some latt family none
    simp only [Pytac.Lattice.get_element_devices, h]
    rw [Pytac.get_element_devices_foldl]
    simp
  · rfl

/-- Claim C8: `get_length()` is the sum of every element's length in lattice
order; on the three-element fixture with lengths `[1, 2, 3]` it equals
6 and `get_s` of the third element equals 3. -/
theorem get_length_spec (latt : Pytac.Lattice) :
    latt.get_length = (latt.lattice.map Element.length).sum ∧
    Pytac.exLatt3.get_length = 6 ∧
    Pytac.exLatt3.get_s Pytac.el3 = .ok 3 := by
  refine ⟨?_, ?_, ?_⟩
  · rw [Pytac.Lattice.get_length, Pytac.foldl_add_length]
    simp
  · norm_num [Pytac.Lattice.get_length, Pytac.exLatt3, Pytac.el1, Pytac.el2, Pytac.el3]
  · norm_num [Pytac.Lattice.get_s, Pytac.Lattice.get_s_aux, Pytac.exLatt3,
      Pytac.el1, Pytac.el2, Pytac.el3]

namespace Pytac

theorem get_s_aux_not_found (elem : Element) (l : List Element) (acc : ℚ)
    (h : ∀ el ∈ l, el.eid ≠ elem.eid) :
    Lattice.get_s_aux elem l acc
      = .error (.latticeException "Element not in lattice") := by
  induction l generalizing acc with
  | nil => rfl
  | cons el rest ih =>
      rw [Lattice.get_s_aux, if_pos (h el (List.mem_cons_self el rest))]
      exact ih _ fun x hx => h x (List.mem_cons_of_mem el hx)

theorem get_s_aux_nodup_get (l : List Element) (i : Nat) (hi : i < l.length) (acc : ℚ)
    (hpre : ∀ el ∈ l.take i, el.eid ≠ (l.get ⟨i, hi⟩).eid) :
    Lattice.get_s_aux (l.get ⟨i, hi⟩) l acc
      = .ok (acc + ((l.take i).map Element.length).sum) := by
  induction l generalizing i acc with
  | nil => cases hi
  | cons e es ih =>
      cases i with
      | zero =>
          rw [Lattice.get_s_aux, if_neg (by simp)]
          simp
      | succ j =>
          have hj : j < es.length := Nat.lt_of_succ_lt_succ hi
          have hget : (e :: es).get ⟨j + 1, hi⟩ = es.get ⟨j, hj⟩ := rfl
          have hcond : e.eid ≠ ((e :: es).get ⟨j + 1, hi⟩).eid :=
            hpre e (by simp [List.take_succ_cons])
          rw [Lattice.get_s_aux, if_pos hcond, hget]
          have hpre2 : ∀ el ∈ es.take j, el.eid ≠ (es.get ⟨j, hj⟩).eid := by
            intro el hel
            have hin := hpre el (by simp [List.take_succ_cons, hel])
            rwa [hget] at hin
          rw [ih j hj (acc + e.length) hpre2]
          simp [List.take_succ_cons, add_assoc]

end Pytac

/-- Claim C4: on a lattice whose elements are pairwise distinct by identity,
`get_s` of the element at position `i` equals the sum of the lengths of
the elements strictly before it (hence 0 for the first element, and the
total length minus its own length for the last element); `get_s` of an
element whose identity occurs nowhere in the lattice (even one equal by
value to a present element) raises `LatticeException`. -/
theorem get_s_spec (latt : Pytac.Lattice)
    (h : (latt.lattice.map Element.eid).Nodup) :
    (∀ i (hi : i < latt.lattice.length),
        latt.get_s (latt.lattice.get ⟨i, hi⟩)
          = .ok (((latt.lattice.take i).map Element.length).sum)) ∧
    (∀ elem, (∀ el ∈ latt.lattice, el.eid ≠ elem.eid) →
        latt.get_s elem = .error (.latticeException "Element not in lattice")) ∧
    (∀ hne : latt.lattice ≠ [],
        latt.get_s (latt.lattice.getLast hne)
          = .ok (latt.get_length - (latt.lattice.getLast hne).length)) := by
  have key : ∀ i (hi : i < latt.lattice.length),
      latt.get_s (latt.lattice.get ⟨i, hi⟩)
        = .ok (((latt.lattice.take i).map Element.length).sum) := by
    intro i hi
    have hpw : latt.lattice.Pairwise (fun a b => a.eid ≠ b.eid) :=
      List.pairwise_map.mp h
    have hpwsplit : (latt.lattice.take i ++ latt.lattice.drop i).Pairwise
        (fun a b => a.eid ≠ b.eid) := by
      rw [List.take_append_drop]
      exact hpw
    have hsplit := (List.pairwise_append.mp hpwsplit).2.2
    have hmem : latt.lattice.get ⟨i, hi⟩ ∈ latt.lattice.drop i := by
      rw [List.get_eq_getElem, List.drop_eq_getElem_cons hi]
      exact List.mem_cons_self _ _
    have hpre : ∀ el ∈ latt.lattice.take i,
        el.eid ≠ (latt.lattice.get ⟨i, hi⟩).eid :=
      fun el hel => hsplit el hel _ hmem
    have hmain := Pytac.get_s_aux_nodup_get latt.lattice i hi 0 hpre
    rw [Pytac.Lattice.get_s, hmain, zero_add]
  refine ⟨key, ?_, ?_⟩
  · intro elem helem
    exact Pytac.get_s_aux_not_found elem latt.lattice 0 helem
  · intro hne
    have hlen : 0 < latt.lattice.length := List.length_pos.mpr hne
    have hi : latt.lattice.length - 1 < latt.lattice.length := by omega
    have hlast : latt.lattice.get ⟨latt.lattice.length - 1, hi⟩
        = latt.lattice.getLast hne := List.get_length_sub_one hi
    have hk := key (latt.lattice.length - 1) hi
    rw [hlast] at hk
    rw [hk]
    have hdecomp : latt.lattice.dropLast ++ [latt.lattice.getLast hne] = latt.lattice :=
      List.dropLast_append_getLast hne
    have htake : latt.lattice.take (latt.lattice.length - 1) = latt.lattice.dropLast := by
      rw [List.dropLast_eq_take]
    have hsum : (latt.lattice.map Element.length).sum
        = ((latt.lattice.dropLast).map Element.length).sum
            + (latt.lattice.getLast hne).length := by
      conv_lhs => rw [← hdecomp]
      simp
    rw [htake, Pytac.Lattice.get_length, Pytac.foldl_add_length, zero_add, hsum]
    simp

/-- Claim C4 witness: on the three-element fixture (pairwise-distinct
identities), `get_s` of the first element is 0, and `get_s` of a
value-equal copy of the first element with a fresh identity raises
`LatticeException`. -/
theorem get_s_spec_witness :
    (Pytac.exLatt3.lattice.map Element.eid).Nodup ∧
    Pytac.exLatt3.get_s Pytac.el1 = .ok 0 ∧
    Pytac.exLatt3.get_s Pytac.el1twin
      = .error (.latticeException "Element not in lattice") := by
  have h := get_s_spec Pytac.exLatt3 (by decide)
  refine ⟨by decide, ?_, ?_⟩
  · have h0 := h.1 0 (by decide)
    simpa [Pytac.exLatt3] using h0
  · exact h.2.1 Pytac.el1twin (by decide)

/-- Claim C9: every query method of the lattice (`get_value`, `get_fields`,
`get_device`, `get_unitconv`, `get_energy`, `get_length`,
`get_elements`, `get_all_families`, `get_s`, `get_family_s`,
`get_element_devices`, `get_element_device_names`,
`get_element_values`) leaves the lattice state (name, energy, element
sequence, model table, unit-conversion table) unchanged, whether it
returns a value or an exception. -/
theorem queries_preserve_state (latt : Pytac.Lattice) (m : Pytac.LMethod)
    (h : m.isQuery = true) : (latt.call m).2 = latt := by
  cases m <;> first | rfl | simp [Pytac.LMethod.isQuery] at h

/-- Claim C9 witness: a concrete query call on the fixture lattice returns
the state unchanged. -/
theorem queries_preserve_state_witness :
    (Pytac.LMethod.mGetEnergy).isQuery = true ∧
    (Pytac.exLatt3.call Pytac.LMethod.mGetEnergy).2 = Pytac.exLatt3 :=
  ⟨rfl, queries_preserve_state Pytac.exLatt3 Pytac.LMethod.mGetEnergy rfl⟩

namespace Pytac

theorem familyMatch_some (f : String) (fams : List String) :
    Lattice.familyMatch (some f) fams = fams.contains f := rfl

theorem set_element_values_elements (latt : Lattice) (family : String) :
    latt.get_elements (some family) none
      = latt.lattice.filter fun e => e.families.contains family :=
  get_elements_some latt family none

theorem set_element_values_eq (latt : Lattice) (family field : String) (values : List ℚ) :
    latt.set_element_values family field values
      = if (latt.lattice.filter fun e => e.families.contains family).length
            = values.length
        then (.ok (), { latt with
                lattice := Lattice.set_values_zip family field latt.lattice values })
        else (.error (.latticeException
                ("Number of elements in given array must be equal to the number of elements in the family")),
              latt) := by
  by_cases h : (latt.lattice.filter fun e => e.families.contains family).length
      = values.length
  · simp [Lattice.set_element_values, set_element_values_elements, h]
  · simp [Lattice.set_element_values, set_element_values_elements, h]

theorem set_values_zip_get (family field : String) (l : List Element) :
    ∀ (vs : List ℚ) (i : Nat) (e : Element),
      (l.countP fun e2 => Lattice.familyMatch (some family) e2.families) ≤ vs.length →
      l.get? i = some e →
      (Lattice.set_values_zip family field l vs).get? i
        = some (if Lattice.familyMatch (some family) e.families
            then e.set_value field (vs.getD
                ((l.take i).countP fun e2 => Lattice.familyMatch (some family) e2.families) 0)
            else e) := by
  induction l with
  | nil => intro vs i e _ hi; simp at hi
  | cons e0 es ih =>
      intro vs i e hlen hi
      rw [List.countP_cons] at hlen
      by_cases hp : Lattice.familyMatch (some family) e0.families = true
      · simp only [hp, if_true] at hlen
        cases vs with
        | nil => simp only [List.length_nil] at hlen; omega
        | cons v vs2 =>
            rw [Lattice.set_values_zip, if_pos hp]
            cases i with
            | zero =>
                rw [List.get?_cons_zero] at hi
                obtain rfl : e0 = e := by injection hi
                simp [hp]
            | succ j =>
                rw [List.get?_cons_succ] at hi
                have hrec := ih vs2 j e
                  (by simp only [List.length_cons] at hlen; omega) hi
                rw [List.get?_cons_succ, hrec]
                simp [List.take_succ_cons, List.countP_cons, hp]
      · simp only [hp, if_false] at hlen
        have hzip : Lattice.set_values_zip family field (e0 :: es) vs
            = e0 :: Lattice.set_values_zip family field es vs := by
          cases vs <;> rw [Lattice.set_values_zip, if_neg hp]
        rw [hzip]
        cases i with
        | zero =>
            rw [List.get?_cons_zero] at hi
            obtain rfl : e0 = e := by injection hi
            simp [hp]
        | succ j =>
            rw [List.get?_cons_succ] at hi
            have hrec := ih vs j e (by simpa using hlen) hi
            rw [List.get?_cons_succ, hrec]
            simp [List.take_succ_cons, List.countP_cons, hp]

theorem set_values_zip_length (family field : String) (l : List Element) (vs : List ℚ) :
    (Lattice.set_values_zip family field l vs).length = l.length := by
  induction l generalizing vs with
  | nil => rfl
  | cons e0 es ih =>
      by_cases hp : Lattice.familyMatch (some family) e0.families = true
      · cases vs with
        | nil => simp [Lattice.set_values_zip, hp, ih]
        | cons v vs2 => simp [Lattice.set_values_zip, hp, ih]
      · cases vs with
        | nil => simp [Lattice.set_values_zip, hp, ih]
        | cons v vs2 => simp [Lattice.set_values_zip, hp, ih]

end Pytac

/-- Claim C5: `set_element_values(family, field, values)` raises
`LatticeException` when the value count differs from the family's
element count; when the counts match it succeeds, touching nothing but
the element sequence, and the element at each lattice position is
unchanged when outside the family, while the k-th family element (in
lattice order) receives `values[k]` through its own `set_value`, the
value passed through unchanged with no unit conversion applied. -/
theorem set_element_values_spec (latt : Pytac.Lattice) (family field : String)
    (values : List ℚ) :
    ((latt.lattice.filter fun e => e.families.contains family).length ≠ values.length →
      latt.set_element_values family field values
        = (.error (.latticeException
            ("Number of elements in given array must be equal to the number of elements in the family")),
           latt)) ∧
    ((latt.lattice.filter fun e => e.families.contains family).length = values.length →
      (latt.set_element_values family field values).1 = .ok () ∧
      (latt.set_element_values family field values).2.name = latt.name ∧
      (latt.set_element_values family field values).2.energy = latt.energy ∧
      (latt.set_element_values family field values).2.models = latt.models ∧
      (latt.set_element_values family field values).2.uc = latt.uc ∧
      (latt.set_element_values family field values).2.lattice.length
        = latt.lattice.length ∧
      (∀ i e, latt.lattice.get? i = some e →
        (latt.set_element_values family field values).2.lattice.get? i
          = some (if e.families.contains family
              then e.set_value field (values.getD
                  ((latt.lattice.take i).countP fun e2 => e2.families.contains family) 0)
              else e))) := by
  constructor
  · intro hne
    rw [Pytac.set_element_values_eq, if_neg hne]
  · intro heq
    have hres : latt.set_element_values family field values
        = (.ok (), { latt with
            lattice := Pytac.Lattice.set_values_zip family field latt.lattice values }) := by
      rw [Pytac.set_element_values_eq, if_pos heq]
    refine ⟨by rw [hres], by rw [hres], by rw [hres], by rw [hres], by rw [hres],
      ?_, ?_⟩
    · rw [hres]
      exact Pytac.set_values_zip_length family field latt.lattice values
    · intro i e hi
      rw [hres]
      have hlen : (latt.lattice.countP
          fun e2 => Pytac.Lattice.familyMatch (some family) e2.families) ≤ values.length := by
        rw [List.countP_eq_length_filter]
        simp only [Pytac.familyMatch_some]
        omega
      have h := Pytac.set_values_zip_get family field latt.lattice values i e hlen hi
      simpa [Pytac.familyMatch_some] using h

/-- Claim C5 witness: on the fixture lattice, writing `[10, 20]` to family
`A` succeeds and stores 10 into the first element unchanged, while a
one-value write to the two-element family raises `LatticeException`. -/
theorem set_element_values_spec_witness :
    (Pytac.exLatt3.lattice.filter fun e => e.families.contains "A").length = [(10:ℚ), 20].length ∧
    (Pytac.exLatt3.set_element_values "A" "x" [10, 20]).1 = .ok () ∧
    (Pytac.exLatt3.set_element_values "A" "x" [10, 20]).2.lattice.get? 0
      = some (Pytac.el1.set_value "x" 10) ∧
    Pytac.exLatt3.set_element_values "A" "x" [10]
      = (.error (.latticeException
          ("Number of elements in given array must be equal to the number of elements in the family")),
         Pytac.exLatt3) := by
  have h := set_element_values_spec Pytac.exLatt3 "A" "x" [10, 20]
  have h2 := (h.2 (by decide)).1
  have h3 := (h.2 (by decide)).2.2.2.2.2.2 0 Pytac.el1 rfl
  have h4 := (set_element_values_spec Pytac.exLatt3 "A" "x" [10]).1 (by decide)
  refine ⟨by decide, h2, ?_, h4⟩
  simpa [Pytac.el1] using h3

/-- Claim C10: when `set_element_values` raises `LatticeException` because
the value count does not match the family's element count, the lattice
state is returned unchanged: the length check precedes every write, so
no element's `set_value` is called (the failed bulk set is atomic). -/
theorem set_element_values_mismatch_atomic (latt : Pytac.Lattice)
    (family field : String) (values : List ℚ)
    (h : (latt.lattice.filter fun e => e.families.contains family).length
        ≠ values.length) :
    (latt.set_element_values family field values).2 = latt ∧
    (latt.set_element_values family field values).1
      = .error (.latticeException
          ("Number of elements in given array must be equal to the number of elements in the family")) := by
  rw [Pytac.set_element_values_eq, if_neg h]
  exact ⟨rfl, rfl⟩

/-- Claim C10 witness: a one-value write to the two-element family `A` of the
fixture lattice fails and leaves the lattice exactly as it was. -/
theorem set_element_values_mismatch_atomic_witness :
    (Pytac.exLatt3.lattice.filter fun e => e.families.contains "A").length ≠ [(10:ℚ)].length ∧
    (Pytac.exLatt3.set_element_values "A" "x" [10]).2 = Pytac.exLatt3 ∧
    (Pytac.exLatt3.set_element_values "A" "x" [10]).1
      = .error (.latticeException
          ("Number of elements in given array must be equal to the number of elements in the family")) :=
  ⟨by decide,
    (set_element_values_mismatch_atomic Pytac.exLatt3 "A" "x" [10] (by decide)).1,
    (set_element_values_mismatch_atomic Pytac.exLatt3 "A" "x" [10] (by decide)).2⟩

/-- Claim C6: with a model registered under the requested key that has the
field, and a unit-conversion entry for the field whose conversion is
its own inverse between the requested units and the model's native
units, `set_value(field, v, handle=SP, units, model)` succeeds and a
subsequent `get_value(field, handle=SP, units, model)` returns exactly
`v` (the value converted in on the write and converted back on the
read). -/
theorem set_value_get_value_roundtrip (latt : Pytac.Lattice)
    (field units model : String) (v : ℚ) (m : Model) (u : UnitConv)
    (hm : alookup latt.models model = some m)
    (hu : alookup latt.uc field = some u)
    (hf : field ∈ m.fields)
    (hinv : u.convert (u.convert v units m.units) m.units units = v) :
    (latt.set_value field v pytac.SP units model).1 = .ok () ∧
    (latt.set_value field v pytac.SP units model).2.get_value field pytac.SP units model
      = .ok v := by
  have hmodel : m.set_value field (u.convert v units m.units)
      = .ok ({ m with
          vals := aupdate m.vals (field, pytac.SP) (u.convert v units m.units) }) := by
    rw [Model.set_value, if_pos hf]
  constructor
  · simp [Pytac.Lattice.set_value, hm, hu, hmodel]
  · simp [Pytac.Lattice.set_value, hm, hu, hmodel, Pytac.Lattice.get_value,
      Pytac.alookup_aupdate_self, Model.get_value, hf, hinv]

/-- Claim C6 witness: on a lattice with the LIVE model owning field `x` and
the identity conversion registered for `x`, writing 11 and reading it
back through the setpoint handle returns exactly 11. -/
theorem set_value_get_value_roundtrip_witness :
    "x" ∈ Pytac.mX.fields ∧
    (Pytac.rtLatt.set_value "x" 11 pytac.SP pytac.ENG pytac.LIVE).1 = .ok () ∧
    (Pytac.rtLatt.set_value "x" 11 pytac.SP pytac.ENG pytac.LIVE).2.get_value
        "x" pytac.SP pytac.ENG pytac.LIVE = .ok 11 :=
  ⟨by decide,
    (set_value_get_value_roundtrip Pytac.rtLatt "x" pytac.ENG pytac.LIVE 11 Pytac.mX
      Pytac.ucId rfl rfl (by decide) rfl).1,
    (set_value_get_value_roundtrip Pytac.rtLatt "x" pytac.ENG pytac.LIVE 11 Pytac.mX
      Pytac.ucId rfl rfl (by decide) rfl).2⟩

